import Mathlib

/-
Shallow embedding of the AutoTrading repository core:

- bot/chart_builder.py   : ChartBuilder.realtime_chart_builder, the tick-to-bar
  aggregation engine over a pandas DataFrame whose rows are (date, time,
  open_X/high_X/low_X/close_X per instrument X, position).
- bot/trading_strategy.py: StockMovingAverageBreakOutStrategy.buy_signal and
  sell_signal, window filters over DataFrame column slices.
- bot/trader_stock.py    : DataListener.OnReceived, the dispatcher branch for
  current-price ticks (the future variant in trader_future.py is structurally
  identical and differs only in session offsets and order flags).

Modelling conventions:
- pandas cells that may be NaN (an instrument not yet traded in a bucket) are
  Option values; a missing association-list entry is the same as NaN.
- prices (Python floats) are modelled as rationals; times (Python ints in
  HHMMSS or HHMM form) are Int, with Python floor division // as Int.fdiv and
  Python % as Int.emod (they agree for the positive divisors used here).
- fallible Python code (KeyError from a missing DataFrame column, ValueError
  from min()/max() of an empty slice, IndexError from .index[-1] of an empty
  frame) is modelled with Except String.
- the Python selection of the four OHLC columns of the triggering instrument
  (target_cols, matched by substring on the column names) is modelled by
  keying each row cell directly by the instrument code.
-/

namespace AutoTrading

set_option maxRecDepth 10000

/-- Decidable equality of Except results, used to evaluate the embedded
functions on concrete inputs. -/
instance {ε α : Type} [DecidableEq ε] [DecidableEq α] : DecidableEq (Except ε α)
  | .error e, .error f =>
    match decEq e f with
    | isTrue h => isTrue (by rw [h])
    | isFalse h => isFalse (by intro hh; cases hh; exact h rfl)
  | .error _, .ok _ => isFalse (by intro hh; cases hh)
  | .ok _, .error _ => isFalse (by intro hh; cases hh)
  | .ok a, .ok b =>
    match decEq a b with
    | isTrue h => isTrue (by rw [h])
    | isFalse h => isFalse (by intro hh; cases hh; exact h rfl)

/-- Value stored in the shared position column of the chart: Python False
(no position) or an instrument code string (the held instrument). -/
inductive PositionVal where
  | flat
  | holding (code : String)
deriving DecidableEq

/-- One instrument cell of a bar row: the four OHLC fields, each possibly
NaN (none) when the instrument has not traded in the bucket yet.  The fields
correspond to the DataFrame columns open_X, high_X, low_X, close_X. -/
structure Cell where
  o : Option ℚ
  h : Option ℚ
  l : Option ℚ
  c : Option ℚ
deriving DecidableEq

/-- One row of the chart DataFrame: date, (bucket) time, shared position
column, and one Cell per instrument code. -/
structure BarRow where
  date : String
  time : Int
  position : PositionVal
  cells : List (String × Cell)
deriving DecidableEq

/-- The chart DataFrame of ChartBuilder: an ordered list of rows. -/
structure Chart where
  rows : List BarRow
deriving DecidableEq

/-- Association-list lookup by string key (models reading a set of DataFrame
columns or cells for a given instrument). -/
def alist_find {α : Type} : List (String × α) → String → Option α
  | [], _ => none
  | (k, v) :: rest, key => if k = key then some v else alist_find rest key

/-- Association-list update by string key, inserting at the end when the key
is absent (models writing a set of DataFrame cells for a given instrument). -/
def alist_set {α : Type} : List (String × α) → String → α → List (String × α)
  | [], key, v => [(key, v)]
  | (k, w) :: rest, key, v =>
      if k = key then (key, v) :: rest else (k, w) :: alist_set rest key v

/-- Cell for an instrument in a row, a missing entry standing for all-NaN. -/
def get_cell (cells : List (String × Cell)) (code : String) : Cell :=
  (alist_find cells code).getD ⟨none, none, none, none⟩

/-- Cell with all four OHLC fields set to the same price (the assignment
[cur_price] * 4 to the four target columns). -/
def full_cell (p : ℚ) : Cell :=
  ⟨some p, some p, some p, some p⟩

/-- Effective bucket of a tick, from chart_builder.py lines 61-68:
hhmm = time // 100; clamp to end_time when hhmm >= end_time; else roll the
hour over when the minute field is 59; else add one minute. -/
def bucket_time (end_time time : Int) : Int :=
  let hhmm := Int.fdiv time 100
  if hhmm ≥ end_time then end_time
  else if Int.emod hhmm 100 = 59 then (Int.fdiv hhmm 100 + 1) * 100
  else hhmm + 1

/-- Replace the last row of a list of rows (models in-place assignment via
chart.loc[chart.index[-1], ...]); identity on the empty list. -/
def set_last_row (rows : List BarRow) (r : BarRow) : List BarRow :=
  rows.dropLast ++ [r]

/-- ChartBuilder.realtime_chart_builder from chart_builder.py lines 51-101.
Branches, in source order:
- rownow is the set of rows matching (date, effective bucket);
- on an empty chart the source raises (pandas UndefinedVariableError from
  query on a column-less frame, or IndexError at chart.index[-1]); the model
  collapses both into one error;
- branch 1 (len(rownow) == 0): append a new row, copying position from the
  last row and setting the four cells of the triggering instrument to price;
- branch 2 (len(rownow) == 1 and the last row open cell of the instrument is
  NaN): set the four cells of the instrument in the last row to price;
- branch 3 (else): in the last row set close = price, raise high when
  high < price, lower low when low > price (a NaN high or low compares False
  in Python, so it stays NaN). -/
def realtime_chart_builder (end_time : Int) (ch : Chart) (date code : String)
    (time : Int) (cur_price : ℚ) : Except String Chart :=
  let hhmm := bucket_time end_time time
  let rownow := ch.rows.filter (fun r => r.date = date ∧ r.time = hhmm)
  match ch.rows.getLast? with
  | none => .error "IndexError"
  | some lastRow =>
    if rownow.length = 0 then
      .ok ⟨ch.rows ++ [⟨date, hhmm, lastRow.position, [(code, full_cell cur_price)]⟩]⟩
    else if rownow.length = 1 ∧ (get_cell lastRow.cells code).o = none then
      .ok ⟨set_last_row ch.rows
        { lastRow with cells := alist_set lastRow.cells code (full_cell cur_price) }⟩
    else
      let cl := get_cell lastRow.cells code
      let cl' : Cell :=
        { o := cl.o
          h := match cl.h with
               | some hv => if hv < cur_price then some cur_price else some hv
               | none => none
          l := match cl.l with
               | some lv => if lv > cur_price then some cur_price else some lv
               | none => none
          c := some cur_price }
      .ok ⟨set_last_row ch.rows
        { lastRow with cells := alist_set lastRow.cells code cl' }⟩

/-- One tick for the bar builder: date, code, time (HHMMSS), price. -/
structure BuildTick where
  date : String
  code : String
  time : Int
  price : ℚ
deriving DecidableEq

/-- Sequence of realtime_chart_builder updates applied in order; a raised
exception propagates (stops the sequence). -/
def apply_ticks (end_time : Int) (ch : Chart) : List BuildTick → Except String Chart
  | [] => .ok ch
  | tk :: rest =>
    match realtime_chart_builder end_time ch tk.date tk.code tk.time tk.price with
    | .error e => .error e
    | .ok ch' => apply_ticks end_time ch' rest

/-- A cell is either all-NaN (instrument not yet traded in the bucket) or
fully populated with low ≤ open ≤ high and low ≤ close ≤ high. -/
def cell_ok (cl : Cell) : Bool :=
  match cl.o, cl.h, cl.l, cl.c with
  | none, none, none, none => true
  | some o, some h, some l, some c => decide (l ≤ o ∧ o ≤ h ∧ l ≤ c ∧ c ≤ h)
  | _, _, _, _ => false

/-- Well-formedness of a chart: no two rows share a (date, time) bucket key,
and every cell is all-NaN or fully populated with the OHLC inequalities. -/
def chart_wf (ch : Chart) : Prop :=
  (ch.rows.map (fun r => (r.date, r.time))).Nodup ∧
  ∀ r ∈ ch.rows, ∀ pr ∈ r.cells, cell_ok pr.2 = true

instance : DecidablePred chart_wf := fun ch => by
  unfold chart_wf
  infer_instance

/-- The claimed bucket invariant: every populated cell (all four OHLC fields
present) of every row satisfies low ≤ open ≤ high and low ≤ close ≤ high. -/
def ohlc_invariant (ch : Chart) : Prop :=
  ∀ r ∈ ch.rows, ∀ pr ∈ r.cells, ∀ o h l c,
    pr.2 = ⟨some o, some h, some l, some c⟩ →
    l ≤ o ∧ o ≤ h ∧ l ≤ c ∧ c ≤ h

/-- The bucket invariant read off an update result, trivially true on a
raised exception (no chart is produced there). -/
def result_invariant : Except String Chart → Prop
  | .ok ch => ohlc_invariant ch
  | .error _ => True

/-- Session window of a strategy object: the start_time and end_time
attributes of StockMovingAverageBreakOutStrategy, HHMM integers. -/
structure StratParams where
  start_time : Int
  end_time : Int
deriving DecidableEq

/-- Session window used when the strategy is built with api = None
(trading_strategy.py line 43, the configuration of the repository tests). -/
def test_params : StratParams := ⟨900, 1530⟩

/-- Chart as seen by the signal functions: the DataFrame viewed as named
columns of prices (the signal code only reads whole columns by name). -/
structure StratChart where
  cols : List (String × List ℚ)
deriving DecidableEq

/-- Column access chart[name]: KeyError when the column is absent. -/
def get_col (chart : StratChart) (name : String) : Except String (List ℚ) :=
  match alist_find chart.cols name with
  | some xs => .ok xs
  | none => .error "KeyError"

/-- Python slice xs[-(n+1):-1]: at most the last n elements strictly before
the final one (the windows of completed bars used by the signal code, which
exclude the in-progress last row). -/
def tail_slice (xs : List ℚ) (n : Nat) : List ℚ :=
  let ys := xs.dropLast
  ys.drop (ys.length - n)

/-- Running minimum of the CPython min loop: a later element replaces the
running minimum only when strictly smaller. -/
def run_min : ℚ → List ℚ → ℚ
  | a, [] => a
  | a, b :: l => if b < a then run_min b l else run_min a l

/-- Running maximum of the CPython max loop: a later element replaces the
running maximum only when strictly greater. -/
def run_max : ℚ → List ℚ → ℚ
  | a, [] => a
  | a, b :: l => if b > a then run_max b l else run_max a l

/-- Python builtin min over a list, ValueError on an empty argument. -/
def py_min : List ℚ → Except String ℚ
  | [] => .error "ValueError"
  | x :: xs => .ok (run_min x xs)

/-- Python builtin max over a list, ValueError on an empty argument. -/
def py_max : List ℚ → Except String ℚ
  | [] => .error "ValueError"
  | x :: xs => .ok (run_max x xs)

/-- StockMovingAverageBreakOutStrategy.buy_signal from trading_strategy.py
lines 47-83.  The five conditions, in source order; the column reads and the
min/max calls are sequenced as Python evaluates the conditions list, so a
missing column raises KeyError before an empty window can raise ValueError.
Slice [-121:-1] is tail_slice _ 120, [-361:-1] is tail_slice _ 360, and
[-76:-1] is tail_slice _ 75. -/
def buy_signal (ps : StratParams) (chart : StratChart) (code : String)
    (cur_price : ℚ) (cur_time : Int) : Except String Bool :=
  match get_col chart ("low_" ++ code) with
  | .error e => .error e
  | .ok low =>
  match py_min (tail_slice low 120) with
  | .error e => .error e
  | .ok lmin120 =>
  match py_min (tail_slice low 360) with
  | .error e => .error e
  | .ok lmin360 =>
  match get_col chart ("high_" ++ code) with
  | .error e => .error e
  | .ok high =>
  match py_min (tail_slice high 75) with
  | .error e => .error e
  | .ok hmin75 =>
  match py_min (tail_slice high 360) with
  | .error e => .error e
  | .ok hmin360 =>
  match py_max (tail_slice high 120) with
  | .error e => .error e
  | .ok hmax120 =>
    .ok (decide (Int.fdiv cur_time 100 > ps.start_time + 130) &&
         decide (Int.fdiv cur_time 100 < ps.end_time - 10) &&
         decide (lmin120 > lmin360) &&
         decide (hmin75 > hmin360) &&
         decide (cur_price > hmax120))

/-- StockMovingAverageBreakOutStrategy.sell_signal from trading_strategy.py
lines 85-113.  Any of the three conditions triggers a sell; Python builds the
whole conditions list before any(), so all reads happen even when the first
condition is already true.  The source literal 0.96 (an IEEE double) is
modelled as the exact rational 96/100. -/
def sell_signal (ps : StratParams) (chart : StratChart) (code : String)
    (cur_price : ℚ) (cur_time : Int) : Except String Bool :=
  match get_col chart ("low_" ++ code) with
  | .error e => .error e
  | .ok low =>
  match py_min (tail_slice low 120) with
  | .error e => .error e
  | .ok lmin120 =>
  match get_col chart ("high_" ++ code) with
  | .error e => .error e
  | .ok high =>
  match py_max (tail_slice high 120) with
  | .error e => .error e
  | .ok hmax120 =>
    .ok (decide (Int.fdiv cur_time 100 > ps.end_time - 10) ||
         decide (cur_price < lmin120) ||
         decide (cur_price < hmax120 * (96 / 100)))

/-- Index column 0..399 of the synthetic test chart. -/
def idx400 : List ℚ := (List.range 400).map (fun i => ((i : Int) : ℚ))

/-- Column high[i] = i + 1 of the synthetic test chart. -/
def high400 : List ℚ := (List.range 400).map (fun i => ((i + 1 : Int) : ℚ))

/-- Column low[i] = i - 1 of the synthetic test chart. -/
def low400 : List ℚ := (List.range 400).map (fun i => ((i - 1 : Int) : ℚ))

/-- The 400-bar synthetic chart of test_trading_strategy.py lines 24-33:
high[i] = i + 1, low[i] = i - 1, the other columns equal to the index. -/
def chart400 : StratChart :=
  ⟨[("date", idx400), ("time", idx400), ("open_AAPL", idx400),
    ("high_AAPL", high400), ("low_AAPL", low400), ("close_AAPL", idx400)]⟩

/-- Single-bar chart with the AAPL OHLC columns present: one row, so every
window slice of completed bars is empty. -/
def chart1bar : StratChart :=
  ⟨[("date", [1]), ("time", [931]), ("open_AAPL", [10]),
    ("high_AAPL", [12]), ("low_AAPL", [9]), ("close_AAPL", [11])]⟩

/-- The chart of test_buy_raise_key_error in test_trading_strategy.py lines
63-70: columns time and price only, no OHLC columns for any code. -/
def chart_no_code : StratChart :=
  ⟨[("time", [1, 2, 3, 4, 5]), ("price", [10, 20, 30, 40, 50])]⟩

/-- Two-bar chart with the AAPL OHLC columns: the shortest series on which
every window slice of completed bars is nonempty. -/
def chart2bar : StratChart :=
  ⟨[("open_AAPL", [10, 11]), ("high_AAPL", [12, 13]),
    ("low_AAPL", [9, 10]), ("close_AAPL", [11, 12])]⟩

/-- Signature of a signal evaluator as called by the dispatcher:
strategy(api).buy_signal(chart, code, cprice, timess).  OnReceived passes the
live builder chart; the dispatcher logic is independent of how the evaluator
computes its verdict, so the embedding is parametric in it. -/
def SigFn : Type := Chart → String → ℚ → Int → Except String Bool

/-- Market order issued through the brokerage API: trade_stock(code, "2") on
the buy path, trade_stock(code, "1") on the sell path. -/
inductive Order where
  | buy (code : String)
  | sell (code : String)
deriving DecidableEq

/-- State owned by the stock DataListener that the current-price branch of
OnReceived reads and writes: the trading date, the trade universe codes, the
chart builder end_time (bucket clamp), the strategy end_time (session-halt
test), the chart, and whether caller.stop() has been requested. -/
structure TraderState where
  today : String
  univ : List String
  cb_end_time : Int
  strat_end_time : Int
  chart : Chart
  halted : Bool
deriving DecidableEq

/-- One current-price tick event: stock code, time HHMMSS, market price. -/
structure Tick where
  code : String
  time : Int
  price : ℚ
deriving DecidableEq

/-- All OHLC cells of every universe instrument in a row are populated, the
negation of chart.iloc[-1].isnull().any() (date, time and position are never
null). -/
def row_complete (univ : List String) (r : BarRow) : Bool :=
  univ.all (fun code =>
    match alist_find r.cells code with
    | some cl => cl.o.isSome && cl.h.isSome && cl.l.isSome && cl.c.isSome
    | none => false)

/-- Position column of the last chart row,
chart.loc[chart.index[-1], "position"]. -/
def last_position (ch : Chart) : Except String PositionVal :=
  match ch.rows.getLast? with
  | none => .error "IndexError"
  | some r => .ok r.position

/-- Overwrite the position column of the last chart row,
chart.loc[chart.index[-1], "position"] = value. -/
def set_last_position (ch : Chart) (p : PositionVal) : Chart :=
  match ch.rows.getLast? with
  | none => ch
  | some r => ⟨ch.rows.dropLast ++ [{ r with position := p }]⟩

/-- The stockcur (current-price) branch of DataListener.OnReceived in
trader_stock.py lines 46-81 (trader_future.py lines 53-84 is the same shape).
Steps, in source order: update the chart via realtime_chart_builder (a raised
exception propagates and nothing else runs); return immediately when the
chart is unchanged (prior_chart.equals); read position from the last row;
when position == False and buy_signal fires, issue a buy order and record the
code into the last row position; elif position == code and sell_signal fires,
issue a sell order and record False; finally request caller.stop() when
timess >= strategy end_time * 100 and the last row has no null cell.
Returns the successor state and the orders issued. -/
def on_received (buyS sellS : SigFn) (st : TraderState) (tk : Tick) :
    Except String (TraderState × List Order) :=
  match realtime_chart_builder st.cb_end_time st.chart st.today tk.code tk.time tk.price with
  | .error e => .error e
  | .ok chart1 =>
    if chart1 = st.chart then
      .ok (st, [])
    else
      match last_position chart1 with
      | .error e => .error e
      | .ok position =>
        let traded : Except String (Chart × List Order) :=
          if position = PositionVal.flat then
            match buyS chart1 tk.code tk.price tk.time with
            | .error e => .error e
            | .ok true =>
              .ok (set_last_position chart1 (PositionVal.holding tk.code), [Order.buy tk.code])
            | .ok false => .ok (chart1, [])
          else if position = PositionVal.holding tk.code then
            match sellS chart1 tk.code tk.price tk.time with
            | .error e => .error e
            | .ok true => .ok (set_last_position chart1 PositionVal.flat, [Order.sell tk.code])
            | .ok false => .ok (chart1, [])
          else .ok (chart1, [])
        match traded with
        | .error e => .error e
        | .ok (chart2, orders) =>
          let halt :=
            tk.time ≥ st.strat_end_time * 100 &&
              (match chart2.rows.getLast? with
               | some r => row_complete st.univ r
               | none => false)
          .ok ({ st with chart := chart2, halted := st.halted || halt }, orders)

/-- Sequence of OnReceived callbacks: each tick event is handled separately;
an exception escaping one callback leaves the state unchanged (the chart is
only mutated after all reads succeed) and issues no order, and later
callbacks still run.  Returns the final state and a log of
(state before the tick, tick, orders issued). -/
def run_ticks (buyS sellS : SigFn) (st : TraderState) :
    List Tick → TraderState × List (TraderState × Tick × List Order)
  | [] => (st, [])
  | tk :: rest =>
    match on_received buyS sellS st tk with
    | .error _ =>
      let out := run_ticks buyS sellS st rest
      (out.1, (st, tk, []) :: out.2)
    | .ok (st', orders) =>
      let out := run_ticks buyS sellS st' rest
      (out.1, (st, tk, orders) :: out.2)

/-- The seeded two-row chart of ChartBuilderTest._generate_test_data in
test_chart_builder.py lines 14-34: rows (20230101, 930) and (20230101, 931)
for instrument AAPL, position False. -/
def seed_chart : Chart :=
  ⟨[⟨"20230101", 930, PositionVal.flat, [("AAPL", ⟨some 150, some 152, some 149, some 151⟩)]⟩,
    ⟨"20230101", 931, PositionVal.flat, [("AAPL", ⟨some 151, some 153, some 150, some 152⟩)]⟩]⟩

/-- The empty chart pd.DataFrame() a ChartBuilder starts from without a
bootstrap fetch. -/
def empty_chart : Chart := ⟨[]⟩

/-- Signal evaluator that always says yes, used to drive the dispatcher
through its buy branch on concrete runs. -/
def always_sig : SigFn := fun _ _ _ _ => .ok true

/-- Signal evaluator that always says no. -/
def never_sig : SigFn := fun _ _ _ _ => .ok false

/-- Demo dispatcher state over the seeded test chart. -/
def demo_state : TraderState :=
  ⟨"20230101", ["AAPL"], 1530, 1530, seed_chart, false⟩

/-- Demo current-price tick: AAPL at 09:31:00, price 153. -/
def demo_tick : Tick := ⟨"AAPL", 93100, 153⟩

/-- Demo tick sequence for the bar builder: a fresh bucket, two same-bucket
updates moving high and low, and a first trade of a second instrument inside
the open bucket. -/
def demo_build_ticks : List BuildTick :=
  [⟨"20230101", "AAPL", 93100, 153⟩, ⟨"20230101", "AAPL", 93130, 155⟩,
   ⟨"20230101", "AAPL", 93150, 149⟩, ⟨"20230101", "MSFT", 93155, 10⟩]

section Theorems

/-- Cast of a Nat division to Int equals floor division of the casts, the
form produced by the Python // operator on the nonnegative times here. -/
theorem fdiv_natCast (a b : Nat) : Int.fdiv (a : Int) (b : Int) = ((a / b : Nat) : Int) := by
  rw [Int.fdiv_eq_ediv _ (Int.ofNat_nonneg b)]
  exact (Int.ofNat_tdiv a b).symm

/-- C3: for a tick at time hh:mm:ss (mm, ss valid sexagesimal fields), the
effective bucket computed by realtime_chart_builder is the tick time rounded
up to the next full minute, HH:(MM+1):00 with hour rollover at MM = 59,
clamped down to the session end bucket when the tick HHMM is at or after
session close. -/
theorem spec_C3 (end_time : Int) (hh mm ss : Nat) (hmm : mm ≤ 59) (hss : ss ≤ 59) :
    bucket_time end_time ((hh * 10000 + mm * 100 + ss : Nat) : Int) =
      if ((hh * 100 + mm : Nat) : Int) ≥ end_time then end_time
      else if mm = 59 then (((hh + 1) * 100 : Nat) : Int)
      else ((hh * 100 + mm + 1 : Nat) : Int) := by
  have h1 : Int.fdiv ((hh * 10000 + mm * 100 + ss : Nat) : Int) 100 =
      ((hh * 100 + mm : Nat) : Int) := by
    rw [show (100 : Int) = ((100 : Nat) : Int) from rfl, fdiv_natCast]
    congr 1
    omega
  have h2 : Int.emod ((hh * 100 + mm : Nat) : Int) 100 = (mm : Int) := by
    show ((hh * 100 + mm : Nat) : Int) % (100 : Int) = (mm : Int)
    rw [show (100 : Int) = ((100 : Nat) : Int) from rfl, ← Int.ofNat_emod]
    congr 1
    omega
  have h3 : Int.fdiv ((hh * 100 + mm : Nat) : Int) 100 = (hh : Int) := by
    rw [show (100 : Int) = ((100 : Nat) : Int) from rfl, fdiv_natCast]
    congr 1
    omega
  simp only [bucket_time, h1, h2, h3]
  split_ifs <;> push_cast <;> omega

/-- Witness for C3 at the repo test tick 09:31:00 with session end 15:30. -/
theorem spec_C3_witness :
    bucket_time 1530 ((9 * 10000 + 31 * 100 + 0 : Nat) : Int) =
      if ((9 * 100 + 31 : Nat) : Int) ≥ 1530 then 1530
      else if (31 : Nat) = 59 then (((9 + 1) * 100 : Nat) : Int)
      else ((9 * 100 + 31 + 1 : Nat) : Int) :=
  spec_C3 1530 9 31 0 (by decide) (by decide)

/-- C4 counterexample: on an empty Bar Series the update does not produce a
one-row chart; the source raises (chart.index[-1] of an empty frame) and the
series is never built. -/
theorem spec_C4_counterexample :
    realtime_chart_builder 1530 empty_chart "20230101" "AAPL" 93100 153 =
      .error "IndexError" := by
  rfl

/-- C4 (amended): starting from the seeded two-row test chart of
test_chart_builder.py (rows 930 and 931, no row 932),
update("20230101", "AAPL", 93100, 153.0) appends exactly one row with
time = 932 and open = high = low = close = 153.0, position copied from the
last row (FLAT). -/
theorem spec_C4 :
    realtime_chart_builder 1530 seed_chart "20230101" "AAPL" 93100 153 =
      .ok ⟨seed_chart.rows ++
        [⟨"20230101", 932, PositionVal.flat, [("AAPL", full_cell 153)]⟩]⟩ := by
  decide

/-- C5: on the 400-bar synthetic chart (high[i] = i + 1, low[i] = i - 1) at
the mid-session time 12:34:56, buy_signal is True for current price 500 and
False for current price 35; the window minima/maxima are taken over the
completed bars strictly before the most recent row (slices [-121:-1],
[-361:-1], [-76:-1] of the columns). -/
theorem spec_C5 :
    buy_signal test_params chart400 "AAPL" 500 123456 = .ok true ∧
    buy_signal test_params chart400 "AAPL" 35 123456 = .ok false := by
  constructor
  · decide
  · decide

/-- C7: evaluation of the code at the failing input.  At 10:40:00, 100
minutes after the 09:00 session start and therefore inside the first 130
minutes, buy_signal returns True on the 400-bar synthetic chart with current
price 500: the source compares the HHMM-encoded time against
start_time + 130 = 1030, i.e. 10:30, so the market-open filter only rejects
the first 90 minutes, contradicting the claim and the function docstring
(no buys in the first 130 minutes). -/
theorem spec_C7 :
    buy_signal test_params chart400 "AAPL" 500 104000 = .ok true := by
  decide

/-- C8 counterexample: a series that contains the AAPL OHLC columns but holds
a single bar (fewer than 360) makes both signals raise ValueError - the
window slices exclude the only row, so min()/max() run on an empty sequence -
refuting the claim that any series with fewer than 360 bars evaluates without
error. -/
theorem spec_C8_counterexample :
    buy_signal test_params chart1bar "AAPL" 35 123456 = .error "ValueError" ∧
    sell_signal test_params chart1bar "AAPL" 35 123456 = .error "ValueError" := by
  constructor
  · decide
  · decide

/-- Nonempty list gives a Python min result. -/
theorem py_min_ok (xs : List ℚ) (hne : xs ≠ []) : ∃ m, py_min xs = .ok m := by
  cases xs with
  | nil => exact absurd rfl hne
  | cons x rest => exact ⟨run_min x rest, rfl⟩

/-- Nonempty list gives a Python max result. -/
theorem py_max_ok (xs : List ℚ) (hne : xs ≠ []) : ∃ m, py_max xs = .ok m := by
  cases xs with
  | nil => exact absurd rfl hne
  | cons x rest => exact ⟨run_max x rest, rfl⟩

/-- A window slice over a column with at least two entries is nonempty. -/
theorem tail_slice_ne_nil {xs : List ℚ} (hlen : 2 ≤ xs.length) {n : Nat}
    (hn : 1 ≤ n) : tail_slice xs n ≠ [] := by
  have hdl : xs.dropLast.length = xs.length - 1 := List.length_dropLast xs
  have : (tail_slice xs n).length = xs.dropLast.length - (xs.dropLast.length - n) := by
    simp [tail_slice]
  intro hnil
  rw [hnil] at this
  simp at this
  omega

/-- C8 (amended): on a series that contains the instrument OHLC columns with
at least two bars and fewer than 360, buy_signal and sell_signal evaluate
without raising, the windows simply truncating to the completed bars
available.  (With a single bar the windows are empty and min()/max() raise
ValueError, so two bars is the true lower limit.) -/
theorem spec_C8 (ps : StratParams) (chart : StratChart) (code : String)
    (cur_price : ℚ) (cur_time : Int) (low high : List ℚ)
    (hlow : get_col chart ("low_" ++ code) = .ok low)
    (hhigh : get_col chart ("high_" ++ code) = .ok high)
    (hlow2 : 2 ≤ low.length) (hhigh2 : 2 ≤ high.length)
    (_hlow360 : low.length < 360) (_hhigh360 : high.length < 360) :
    (∃ b, buy_signal ps chart code cur_price cur_time = .ok b) ∧
    (∃ b, sell_signal ps chart code cur_price cur_time = .ok b) := by
  obtain ⟨m1, hm1⟩ := py_min_ok _ (tail_slice_ne_nil hlow2 (by norm_num) : tail_slice low 120 ≠ [])
  obtain ⟨m2, hm2⟩ := py_min_ok _ (tail_slice_ne_nil hlow2 (by norm_num) : tail_slice low 360 ≠ [])
  obtain ⟨m3, hm3⟩ := py_min_ok _ (tail_slice_ne_nil hhigh2 (by norm_num) : tail_slice high 75 ≠ [])
  obtain ⟨m4, hm4⟩ := py_min_ok _ (tail_slice_ne_nil hhigh2 (by norm_num) : tail_slice high 360 ≠ [])
  obtain ⟨m5, hm5⟩ := py_max_ok _ (tail_slice_ne_nil hhigh2 (by norm_num) : tail_slice high 120 ≠ [])
  constructor
  · refine ⟨decide (Int.fdiv cur_time 100 > ps.start_time + 130) &&
      decide (Int.fdiv cur_time 100 < ps.end_time - 10) && decide (m1 > m2) &&
      decide (m3 > m4) && decide (cur_price > m5), ?_⟩
    simp only [buy_signal, hlow, hhigh, hm1, hm2, hm3, hm4, hm5]
  · refine ⟨decide (Int.fdiv cur_time 100 > ps.end_time - 10) ||
      decide (cur_price < m1) || decide (cur_price < m5 * (96 / 100)), ?_⟩
    simp only [sell_signal, hlow, hhigh, hm1, hm5]

/-- Witness for C8 on a two-bar chart with the AAPL columns. -/
theorem spec_C8_witness :
    (∃ b, buy_signal test_params chart2bar "AAPL" 35 123456 = .ok b) ∧
    (∃ b, sell_signal test_params chart2bar "AAPL" 35 123456 = .ok b) :=
  spec_C8 test_params chart2bar "AAPL" 35 123456 [9, 10] [12, 13]
    (by decide) (by decide) (by decide) (by decide) (by decide) (by decide)

/-- C9: when the chart lacks the requested code's OHLC columns, both
buy_signal and sell_signal fail with the key-lookup error and never return a
silent False (no .ok result at all). -/
theorem spec_C9 (ps : StratParams) (chart : StratChart) (code : String)
    (cur_price : ℚ) (cur_time : Int)
    (_h_open : alist_find chart.cols ("open_" ++ code) = none)
    (_h_high : alist_find chart.cols ("high_" ++ code) = none)
    (h_low : alist_find chart.cols ("low_" ++ code) = none)
    (_h_close : alist_find chart.cols ("close_" ++ code) = none) :
    buy_signal ps chart code cur_price cur_time = .error "KeyError" ∧
    sell_signal ps chart code cur_price cur_time = .error "KeyError" ∧
    (∀ b, buy_signal ps chart code cur_price cur_time ≠ .ok b) ∧
    (∀ b, sell_signal ps chart code cur_price cur_time ≠ .ok b) := by
  have hg : get_col chart ("low_" ++ code) = .error "KeyError" := by
    simp [get_col, h_low]
  have hbuy : buy_signal ps chart code cur_price cur_time = .error "KeyError" := by
    simp only [buy_signal, hg]
  have hsell : sell_signal ps chart code cur_price cur_time = .error "KeyError" := by
    simp only [sell_signal, hg]
  refine ⟨hbuy, hsell, ?_, ?_⟩
  · intro b hb
    rw [hbuy] at hb
    exact Except.noConfusion hb
  · intro b hb
    rw [hsell] at hb
    exact Except.noConfusion hb

/-- Witness for C9 on the repo test chart with only time and price columns. -/
theorem spec_C9_witness :
    buy_signal test_params chart_no_code "AAPL" 35 123456 = .error "KeyError" ∧
    sell_signal test_params chart_no_code "AAPL" 35 123456 = .error "KeyError" ∧
    (∀ b, buy_signal test_params chart_no_code "AAPL" 35 123456 ≠ .ok b) ∧
    (∀ b, sell_signal test_params chart_no_code "AAPL" 35 123456 ≠ .ok b) :=
  spec_C9 test_params chart_no_code "AAPL" 35 123456
    (by decide) (by decide) (by decide) (by decide)

/-- C6: sell_signal is True exactly when at least one of the three conditions
holds - the tick HHMM is past end_time - 10 (inside the last ten minutes of
the session for the HHMM session ends used here), the current price is below
the minimum of low over the last 120 completed bars, or the current price is
below 96/100 of the maximum of high over the last 120 completed bars - and on
the 400-bar synthetic chart at mid-session, price 35 sells and price 500 does
not. -/
theorem spec_C6 (ps : StratParams) (chart : StratChart) (code : String)
    (cur_price m M : ℚ) (cur_time : Int) (low high : List ℚ)
    (hlow : get_col chart ("low_" ++ code) = .ok low)
    (hhigh : get_col chart ("high_" ++ code) = .ok high)
    (hm : py_min (tail_slice low 120) = .ok m)
    (hM : py_max (tail_slice high 120) = .ok M) :
    (sell_signal ps chart code cur_price cur_time = .ok true ↔
      (Int.fdiv cur_time 100 > ps.end_time - 10 ∨ cur_price < m ∨
        cur_price < M * (96 / 100))) ∧
    sell_signal test_params chart400 "AAPL" 35 123456 = .ok true ∧
    sell_signal test_params chart400 "AAPL" 500 123456 = .ok false := by
  refine ⟨?_, by decide, ?_⟩
  · simp only [sell_signal, hlow, hhigh, hm, hM]
    simp [Bool.or_eq_true, decide_eq_true_eq, or_assoc]
  · have h1 : get_col chart400 ("low_" ++ "AAPL") = .ok low400 := by decide
    have h2 : py_min (tail_slice low400 120) = .ok 278 := by decide
    have h3 : get_col chart400 ("high_" ++ "AAPL") = .ok high400 := by decide
    have h4 : py_max (tail_slice high400 120) = .ok 399 := by decide
    simp only [sell_signal, h1, h2, h3, h4]
    norm_num
    decide

/-- Witness for C6 on the 400-bar synthetic chart at price 35. -/
theorem spec_C6_witness :
    (sell_signal test_params chart400 "AAPL" 35 123456 = .ok true ↔
      (Int.fdiv 123456 100 > test_params.end_time - 10 ∨ (35 : ℚ) < 278 ∨
        (35 : ℚ) < 399 * (96 / 100))) ∧
    sell_signal test_params chart400 "AAPL" 35 123456 = .ok true ∧
    sell_signal test_params chart400 "AAPL" 500 123456 = .ok false :=
  spec_C6 test_params chart400 "AAPL" 35 278 399 123456 low400 high400
    (by decide) (by decide) (by decide) (by decide)

/-- Members of an association-list update carry the new value or were
already present. -/
theorem alist_set_mem {α : Type} {cells : List (String × α)} {k : String}
    {v : α} {pr : String × α} (h : pr ∈ alist_set cells k v) :
    pr.2 = v ∨ pr ∈ cells := by
  induction cells with
  | nil =>
    rw [show alist_set ([] : List (String × α)) k v = [(k, v)] from rfl,
      List.mem_singleton] at h
    subst h
    exact Or.inl rfl
  | cons hd tl ih =>
    obtain ⟨k', v'⟩ := hd
    simp only [alist_set] at h
    by_cases hk : k' = k
    · rw [if_pos hk, List.mem_cons] at h
      rcases h with h | h
      · subst h
        exact Or.inl rfl
      · exact Or.inr (List.mem_cons_of_mem _ h)
    · rw [if_neg hk, List.mem_cons] at h
      rcases h with h | h
      · subst h
        exact Or.inr (List.mem_cons_self _ _)
      · rcases ih h with h' | h'
        · exact Or.inl h'
        · exact Or.inr (List.mem_cons_of_mem _ h')

/-- A successful association-list lookup comes from a member. -/
theorem alist_find_mem {α : Type} {cells : List (String × α)} {k : String}
    {v : α} (h : alist_find cells k = some v) : (k, v) ∈ cells := by
  induction cells with
  | nil => simp [alist_find] at h
  | cons hd tl ih =>
    obtain ⟨k', v'⟩ := hd
    simp only [alist_find] at h
    by_cases hk : k' = k
    · rw [if_pos hk, Option.some.injEq] at h
      subst hk
      subst h
      exact List.mem_cons_self _ _
    · rw [if_neg hk] at h
      exact List.mem_cons_of_mem _ (ih h)

/-- When no row matches (date, time), that bucket key is absent from the
row-key listing. -/
theorem key_not_mem_of_filter_nil {rows : List BarRow} {d : String} {t : Int}
    (h : rows.filter (fun r => r.date = d ∧ r.time = t) = []) :
    (d, t) ∉ rows.map (fun r => (r.date, r.time)) := by
  intro hmem
  rw [List.mem_map] at hmem
  obtain ⟨r, hr, hkey⟩ := hmem
  have hp := List.filter_eq_nil_iff.mp h r hr
  simp only [decide_eq_true_eq] at hp
  exact hp ⟨congrArg Prod.fst hkey, congrArg Prod.snd hkey⟩

/-- Under distinct row keys, at most one row matches a (date, time) pair. -/
theorem filter_key_length_le_one {rows : List BarRow} (d : String) (t : Int)
    (hnd : (rows.map (fun r => (r.date, r.time))).Nodup) :
    (rows.filter (fun r => r.date = d ∧ r.time = t)).length ≤ 1 := by
  induction rows with
  | nil => simp
  | cons r rest ih =>
    simp only [List.map_cons, List.nodup_cons] at hnd
    obtain ⟨hniq, hnd'⟩ := hnd
    by_cases hp : r.date = d ∧ r.time = t
    · have hempty : rest.filter (fun r => r.date = d ∧ r.time = t) = [] := by
        rw [List.filter_eq_nil_iff]
        intro a ha
        simp only [decide_eq_true_eq, not_and]
        intro hdate htime
        exact hniq (List.mem_map.mpr ⟨a, ha, by rw [hdate, htime, hp.1, hp.2]⟩)
      rw [List.filter_cons_of_pos (by simpa using hp), hempty]
      simp
    · rw [List.filter_cons_of_neg (by simpa using hp)]
      exact ih hnd'

/-- A list whose last element is known splits as its dropLast plus that
element. -/
theorem rows_eq_dropLast_append {rows : List BarRow} {last : BarRow}
    (h : rows.getLast? = some last) : rows = rows.dropLast ++ [last] := by
  have hne : rows ≠ [] := by
    intro e
    subst e
    simp at h
  have h2 : last = rows.getLast hne := by
    have hl := List.getLast?_eq_getLast rows hne
    rw [hl, Option.some.injEq] at h
    exact h.symm
  rw [h2]
  exact (List.dropLast_append_getLast hne).symm

/-- A freshly initialised cell satisfies the OHLC shape invariant. -/
theorem cell_ok_full (p : ℚ) : cell_ok (full_cell p) = true := by
  simp [cell_ok, full_cell]

/-- Shape of a cell satisfying the invariant: all-NaN or fully populated
with the OHLC inequalities. -/
theorem cell_ok_cases {cl : Cell} (h : cell_ok cl = true) :
    cl = ⟨none, none, none, none⟩ ∨
    ∃ o hi l c, cl = ⟨some o, some hi, some l, some c⟩ ∧
      l ≤ o ∧ o ≤ hi ∧ l ≤ c ∧ c ≤ hi := by
  obtain ⟨o, hi, l, c⟩ := cl
  cases o <;> cases hi <;> cases l <;> cases c <;>
    simp_all [cell_ok, decide_eq_true_eq]
  exact ⟨_, _, _, _, ⟨rfl, rfl, rfl, rfl⟩, h⟩

/-- A populated cell stays within the invariant after the branch-3 update:
close = price, high raised only when exceeded, low lowered only when
undercut, open untouched. -/
theorem cell_ok_branch3 {o hi l c : ℚ} (p : ℚ)
    (hok : cell_ok ⟨some o, some hi, some l, some c⟩ = true) :
    cell_ok ⟨some o, if hi < p then some p else some hi,
      if l > p then some p else some l, some p⟩ = true := by
  simp only [cell_ok, decide_eq_true_eq] at hok
  obtain ⟨h1, h2, h3, h4⟩ := hok
  split_ifs with hh hl hl <;>
    simp only [cell_ok, decide_eq_true_eq] <;>
    refine ⟨?_, ?_, ?_, ?_⟩ <;> linarith

/-- Every chart satisfying the well-formedness invariant satisfies the
claimed populated-cell OHLC inequalities. -/
theorem wf_implies_invariant {ch : Chart} (h : chart_wf ch) : ohlc_invariant ch := by
  intro r hr pr hpr o hi l c heq
  have hok := h.2 r hr pr hpr
  rw [heq] at hok
  simpa [cell_ok, decide_eq_true_eq] using hok

/-- One realtime_chart_builder update preserves chart well-formedness. -/
theorem update_preserves_wf (end_time : Int) {ch ch' : Chart} (d code : String)
    (t : Int) (p : ℚ) (hwf : chart_wf ch)
    (h : realtime_chart_builder end_time ch d code t p = .ok ch') :
    chart_wf ch' := by
  obtain ⟨hnd, hcells⟩ := hwf
  simp only [realtime_chart_builder] at h
  split at h
  · exact absurd h (by simp)
  · rename_i last hg
    have hdec := rows_eq_dropLast_append hg
    have hlast_mem : last ∈ ch.rows := by
      rw [hdec]
      exact List.mem_append_right _ (List.mem_cons_self _ _)
    split at h
    · -- branch 1: append a new row
      rename_i h0
      cases h
      constructor
      · simp only [Chart.rows, List.map_append, List.map_cons, List.map_nil]
        rw [List.nodup_append]
        refine ⟨hnd, List.nodup_singleton _, ?_⟩
        intro x hx hmem
        simp only [List.mem_singleton] at hmem
        subst hmem
        exact key_not_mem_of_filter_nil (List.length_eq_zero.mp h0) hx
      · intro r hr pr hpr
        rcases List.mem_append.mp hr with hr | hr
        · exact hcells r hr pr hpr
        · simp only [List.mem_singleton] at hr
          subst hr
          simp only [List.mem_singleton] at hpr
          subst hpr
          exact cell_ok_full p
    · rename_i h0
      split at h
      · -- branch 2: first trade of this instrument in an open bucket
        cases h
        constructor
        · have hkeys : (set_last_row ch.rows
              { last with cells := alist_set last.cells code (full_cell p) }).map
                (fun r => (r.date, r.time)) =
              ch.rows.map (fun r => (r.date, r.time)) := by
            conv_rhs => rw [hdec]
            simp [set_last_row]
          simp only [Chart.rows]
          rw [hkeys]
          exact hnd
        · intro r hr pr hpr
          rcases List.mem_append.mp hr with hr | hr
          · exact hcells r (by rw [hdec]; exact List.mem_append_left _ hr) pr hpr
          · simp only [List.mem_singleton] at hr
            subst hr
            simp only at hpr
            rcases alist_set_mem hpr with hv | hv
            · rw [hv]
              exact cell_ok_full p
            · exact hcells last hlast_mem pr hv
      · -- branch 3: update close/high/low of the populated cell
        rename_i hcond
        have h1 : (ch.rows.filter (fun r => r.date = d ∧
            r.time = bucket_time end_time t)).length = 1 := by
          have hle := filter_key_length_le_one d (bucket_time end_time t) hnd
          omega
        have h2 : (get_cell last.cells code).o ≠ none := by
          intro ho
          exact hcond ⟨h1, ho⟩
        cases h
        have hfind : ∃ cl, alist_find last.cells code = some cl := by
          cases hf : alist_find last.cells code with
          | none =>
            exfalso
            apply h2
            simp [get_cell, hf]
          | some cl => exact ⟨cl, rfl⟩
        obtain ⟨cl, hcl⟩ := hfind
        have hclv : get_cell last.cells code = cl := by simp [get_cell, hcl]
        have hclok : cell_ok cl = true :=
          hcells last hlast_mem (code, cl) (alist_find_mem hcl)
        rcases cell_ok_cases hclok with hnone | ⟨o, hi, l, c, hshape, hineq⟩
        · exfalso
          apply h2
          rw [hclv, hnone]
        constructor
        · have hkeys : ∀ cl2 : Cell, (set_last_row ch.rows
              { last with cells := alist_set last.cells code cl2 }).map
                (fun r => (r.date, r.time)) =
              ch.rows.map (fun r => (r.date, r.time)) := by
            intro cl2
            conv_rhs => rw [hdec]
            simp [set_last_row]
          simp only [Chart.rows]
          rw [hkeys]
          exact hnd
        · intro r hr pr hpr
          rcases List.mem_append.mp hr with hr | hr
          · exact hcells r (by rw [hdec]; exact List.mem_append_left _ hr) pr hpr
          · simp only [List.mem_singleton] at hr
            subst hr
            simp only at hpr
            rcases alist_set_mem hpr with hv | hv
            · rw [hv, hclv, hshape]
              exact cell_ok_branch3 p (by
                simp only [cell_ok, decide_eq_true_eq]
                exact hineq)
            · exact hcells last hlast_mem pr hv

/-- C1: for every sequence of realtime_chart_builder updates applied to a
well-formed chart (distinct bucket keys, cells all-NaN or fully populated
within the OHLC bounds - as produced by the bootstrap fetch), every populated
OHLC cell of every row of the resulting chart satisfies
low ≤ open ≤ high and low ≤ close ≤ high for its instrument. -/
theorem spec_C1 (end_time : Int) (ch : Chart) (ticks : List BuildTick)
    (hwf : chart_wf ch) :
    result_invariant (apply_ticks end_time ch ticks) := by
  induction ticks generalizing ch with
  | nil => exact wf_implies_invariant hwf
  | cons tk rest ih =>
    simp only [apply_ticks]
    cases hu : realtime_chart_builder end_time ch tk.date tk.code tk.time tk.price with
    | error e => trivial
    | ok ch'' =>
      exact ih ch'' (update_preserves_wf end_time tk.date tk.code tk.time tk.price hwf hu)

/-- Witness for C1: the seeded test chart is well-formed and a demo tick
sequence (new bucket, same-bucket updates, second instrument) keeps the
invariant. -/
theorem spec_C1_witness :
    chart_wf seed_chart ∧
    result_invariant (apply_ticks 1530 seed_chart demo_build_ticks) :=
  ⟨by constructor; · decide
      · decide,
   spec_C1 1530 seed_chart demo_build_ticks
    (by constructor; · decide
        · decide)⟩

/-- A buy order can only be issued by the flat branch of OnReceived: when
the handler emits Order.buy, the position read from the last row of the
just-updated chart was FLAT. -/
theorem on_received_buy_flat (buyS sellS : SigFn) (st : TraderState) (tk : Tick)
    {st' : TraderState} {orders : List Order}
    (h : on_received buyS sellS st tk = .ok (st', orders)) {c : String}
    (hc : Order.buy c ∈ orders) :
    ∃ ch1, realtime_chart_builder st.cb_end_time st.chart st.today
        tk.code tk.time tk.price = .ok ch1 ∧
      last_position ch1 = .ok PositionVal.flat := by
  simp only [on_received] at h
  split at h
  · exact absurd h (by simp)
  · rename_i chart1 hup
    split at h
    · cases h
      simp at hc
    · split at h
      · exact absurd h (by simp)
      · rename_i position hpos
        split at h
        · exact absurd h (by simp)
        · rename_i chart2 orders2 htraded
          cases h
          split at htraded
          · rename_i hflat
            split at htraded
            · exact absurd htraded (by simp)
            · rename_i hbuy
              cases htraded
              refine ⟨chart1, hup, ?_⟩
              rw [hpos, hflat]
            · cases htraded
              simp at hc
          · split at htraded
            · split at htraded
              · exact absurd htraded (by simp)
              · cases htraded
                simp at hc
              · cases htraded
                simp at hc
            · cases htraded
              simp at hc

/-- C2: over every sequence of current-price tick events processed by the
dispatcher OnReceived handler - whatever verdicts the signal evaluators
return - the position of the last chart row is always FLAT or exactly one
instrument code, and a buy (entry) order is issued only at a step where the
position read from the last row of the just-updated chart is FLAT. -/
theorem spec_C2 (buyS sellS : SigFn) (st : TraderState) (ticks : List Tick) :
    (∀ entry ∈ (run_ticks buyS sellS st ticks).2, ∀ c : String,
        Order.buy c ∈ entry.2.2 →
        ∃ ch1, realtime_chart_builder entry.1.cb_end_time entry.1.chart
            entry.1.today entry.2.1.code entry.2.1.time entry.2.1.price = .ok ch1 ∧
          last_position ch1 = .ok PositionVal.flat) ∧
    (∀ r ∈ (run_ticks buyS sellS st ticks).1.chart.rows,
        r.position = PositionVal.flat ∨
        ∃ c, r.position = PositionVal.holding c) := by
  constructor
  · induction ticks generalizing st with
    | nil =>
      intro entry h
      simp [run_ticks] at h
    | cons tk rest ih =>
      intro entry hentry c hc
      cases hrec : on_received buyS sellS st tk with
      | error e =>
        simp only [run_ticks, hrec, List.mem_cons] at hentry
        rcases hentry with rfl | hentry
        · simp at hc
        · exact ih st entry hentry c hc
      | ok pr =>
        obtain ⟨st2, orders⟩ := pr
        simp only [run_ticks, hrec, List.mem_cons] at hentry
        rcases hentry with rfl | hentry
        · exact on_received_buy_flat buyS sellS st tk hrec hc
        · exact ih st2 entry hentry c hc
  · intro r _
    cases hp : r.position with
    | flat => exact Or.inl rfl
    | holding c => exact Or.inr ⟨c, rfl⟩

/-- Witness for C2: a concrete run over the seeded chart in which the
always-yes evaluator makes the handler issue a buy; the theorem yields that
the position read at that step was FLAT. -/
theorem spec_C2_witness :
    ∃ ch1, realtime_chart_builder demo_state.cb_end_time demo_state.chart
        demo_state.today demo_tick.code demo_tick.time demo_tick.price = .ok ch1 ∧
      last_position ch1 = .ok PositionVal.flat :=
  (spec_C2 always_sig never_sig demo_state [demo_tick]).1
    (demo_state, demo_tick, [Order.buy "AAPL"]) (by decide) "AAPL" (by decide)

end Theorems

end AutoTrading
